import Mathlib

/-
Verification of the gym-workout local persistence and derived-statistics layer.

Modelling conventions, used throughout:
* JavaScript numbers are modelled as rationals (ℚ); epoch-millisecond
  timestamps as integers (ℤ).  JavaScript string values are Lean strings.
* The runtime timezone is modelled as UTC (a fixed zero offset), so the local
  calendar day of a timestamp t is floor(t / 86400000); all properties below
  are timezone-neutral in this sense.
* IndexedDB object stores are modelled as in-memory lists of records; a store
  keyed by keyPath id is an association list, with put = upsert and
  add = insert-that-fails-on-an-existing-key.
* JavaScript Map objects are association lists with set = replace-or-append
  and get = find; Array.prototype.sort (a stable sort) is List.insertionSort,
  which is stable and agrees with any stable sort on the same comparator.
-/

namespace GymWorkout

/-- One calendar day in milliseconds (24*60*60*1000). -/
def oneDay : ℤ := 86400000

/-- Calendar-day index of an epoch-ms timestamp: floor division by one day.
    Models the (year, month, day) triple read off a Date in the fixed-offset
    timezone; two timestamps have equal triples iff they have equal indexes. -/
def dayIdx (t : ℤ) : ℤ := t.fdiv oneDay

/-- Midnight (start of day) of the day containing t; models
    date.setHours(0,0,0,0) and new Date(year, month, day).getTime(). -/
def dayStart (t : ℤ) : ℤ := oneDay * dayIdx t

/-! ## C1: the v1→v2 workout-log migration (initDB, indexedDB.ts)

A raw on-disk workout-log record: the numeric measurement may live in the
legacy weight field, in the value field, in both or in neither; the other
fields are carried along unchanged by the migration cursor. -/

structure RawLogRecord where
  id : Nat
  exerciseId : String
  weight : Option ℚ
  value : Option ℚ
  completed : Bool
  timestamp : ℤ
  sessionId : String
deriving DecidableEq, Repr

/-- One cursor step of the v1→v2 migration: if the record has a weight field
    and no value field, copy weight into value and delete weight; any other
    record is left untouched. -/
def migrateRecord (r : RawLogRecord) : RawLogRecord :=
  if r.weight.isSome ∧ r.value = none then
    { r with value := r.weight, weight := none }
  else r

/-- The v1→v2 migration walks a cursor over every workout-log record and
    rewrites the matching ones in place. -/
def migrateV1toV2 (store : List RawLogRecord) : List RawLogRecord :=
  store.map migrateRecord

/-- A record that carries both a legacy weight field and a value field. -/
def bothFieldsRecord : RawLogRecord :=
  { id := 1, exerciseId := "bench-press", weight := some 5, value := some 7,
    completed := true, timestamp := 1000, sessionId := "A" }

lemma migrateRecord_migrateRecord (r : RawLogRecord) :
    migrateRecord (migrateRecord r) = migrateRecord r := by
  by_cases h : r.weight.isSome ∧ r.value = none
  · simp [migrateRecord, h]
  · simp [migrateRecord, h]

/-- C1 counterexample: the claim says that after one migration run every
    record has no weight field (and value equal to its original weight).  A
    record carrying both fields is not rewritten (the cursor condition
    requires the value field to be absent), so its weight field survives. -/
theorem migrate_not_all_weight_removed :
    ¬ (∀ r ∈ migrateV1toV2 [bothFieldsRecord], r.weight = none) := by
  decide

/-- C1 (amended): the migration rewrites exactly those records that have a
    weight field and no value field (setting value to the original weight and
    removing weight) and leaves every other record — including one that has
    both fields — unchanged; running the migration twice yields the same
    store as running it once. -/
theorem migrateV1toV2_idempotent :
    ∀ store : List RawLogRecord,
      migrateV1toV2 (migrateV1toV2 store) = migrateV1toV2 store ∧
      ∀ r ∈ store,
        (∀ w, r.weight = some w → r.value = none →
          migrateRecord r = { r with value := some w, weight := none }) ∧
        (r.weight = none ∨ r.value ≠ none → migrateRecord r = r) := by
  intro store
  constructor
  · simp only [migrateV1toV2, List.map_map, Function.comp_def,
      migrateRecord_migrateRecord]
  · intro r _
    constructor
    · intro w hw hv
      simp [migrateRecord, hw, hv]
    · intro h
      rcases h with h | h
      · simp [migrateRecord, h]
      · simp [migrateRecord, h]

/-- A pristine v1 record: weight present, value absent. -/
def v1DemoRecord : RawLogRecord :=
  { id := 2, exerciseId := "squat", weight := some 80, value := none,
    completed := true, timestamp := 2000, sessionId := "B" }

/-- Witness for C1: the per-record characterisation applied to a concrete
    v1 record. -/
theorem migrateV1toV2_idempotent_witness :
    migrateRecord v1DemoRecord =
      { v1DemoRecord with value := some 80, weight := none } :=
  ((migrateV1toV2_idempotent [v1DemoRecord]).2 v1DemoRecord (by decide)).1
    80 (by decide) (by decide)

/-! ## C8: saveBodyWeight validation (indexedDB.ts) -/

structure BodyWeightEntry where
  id : Option Nat := none
  weight : ℚ
  timestamp : ℤ
deriving DecidableEq, Repr

/-- saveBodyWeight: reject a non-positive weight, then reject a weight with
    more than one decimal digit (the code tests (weight * 10) % 1 !== 0,
    which for a number w holds exactly when w*10 is not an integer, i.e. the
    rational w*10 has denominator ≠ 1); otherwise append the entry (the
    auto-assigned key is elided).  Errors are thrown before any store write,
    so an error result carries no new store. -/
def saveBodyWeight (w : ℚ) (store : List BodyWeightEntry) (now : ℤ) :
    Except String (List BodyWeightEntry) :=
  if w ≤ 0 then .error "Weight must be greater than 0"
  else if (w * 10).den ≠ 1 then
    .error "Weight must have maximum one decimal place (e.g., 75.5)"
  else .ok (store ++ [{ weight := w, timestamp := now }])

lemma den_7555_mul_ten : ((1511/20 : ℚ) * 10).den ≠ 1 := by
  intro hden
  have h2 : (1511/20 : ℚ) * 10 = 1511/2 := by norm_num
  rw [h2, Rat.den_eq_one_iff] at hden
  have h3 : (2 : ℚ) * ((1511/2 : ℚ).num : ℚ) = 1511 := by rw [hden]; norm_num
  have h4 : (2 : ℤ) * (1511/2 : ℚ).num = 1511 := by exact_mod_cast h3
  omega

lemma den_755_mul_ten : ((151/2 : ℚ) * 10).den = 1 := by norm_num

/-- C8: saveBodyWeight fails (writing nothing) exactly when the weight is
    non-positive or has more than one decimal digit, and otherwise appends
    the entry; in particular 75.55 (= 1511/20) fails and 75.5 (= 151/2)
    succeeds. -/
theorem saveBodyWeight_spec :
    ∀ (w : ℚ) (store : List BodyWeightEntry) (now : ℤ),
      ((w ≤ 0 ∨ (w * 10).den ≠ 1) ↔
        ∃ msg, saveBodyWeight w store now = .error msg) ∧
      (0 < w → (w * 10).den = 1 →
        saveBodyWeight w store now =
          .ok (store ++ [{ id := none, weight := w, timestamp := now }])) ∧
      (∃ msg, saveBodyWeight (1511/20) store now = .error msg) ∧
      saveBodyWeight (151/2) store now =
        .ok (store ++ [{ id := none, weight := 151/2, timestamp := now }]) := by
  have main : ∀ (w : ℚ) (store : List BodyWeightEntry) (now : ℤ),
      ((w ≤ 0 ∨ (w * 10).den ≠ 1) ↔
        ∃ msg, saveBodyWeight w store now = .error msg) ∧
      (0 < w → (w * 10).den = 1 →
        saveBodyWeight w store now =
          .ok (store ++ [{ id := none, weight := w, timestamp := now }])) := by
    intro w store now
    constructor
    · constructor
      · intro h
        by_cases h1 : w ≤ 0
        · exact ⟨"Weight must be greater than 0", by simp [saveBodyWeight, h1]⟩
        · have h2 : (w * 10).den ≠ 1 := h.resolve_left h1
          exact ⟨"Weight must have maximum one decimal place (e.g., 75.5)",
            by simp [saveBodyWeight, h1, h2]⟩
      · rintro ⟨msg, hmsg⟩
        by_cases h1 : w ≤ 0
        · exact Or.inl h1
        · by_cases h2 : (w * 10).den ≠ 1
          · exact Or.inr h2
          · simp [saveBodyWeight, h1, h2] at hmsg
    · intro hw hden
      have h1 : ¬ w ≤ 0 := not_le.mpr hw
      simp [saveBodyWeight, h1, hden]
  intro w store now
  refine ⟨(main w store now).1, (main w store now).2, ?_, ?_⟩
  · exact (main (1511/20) store now).1.mp (Or.inr den_7555_mul_ten)
  · exact (main (151/2) store now).2 (by norm_num) den_755_mul_ten

/-- Witness for C8: a concrete successful save, via the theorem. -/
theorem saveBodyWeight_spec_witness :
    saveBodyWeight (151/2) [] 0 =
      .ok [{ id := none, weight := 151/2, timestamp := 0 }] := by
  have h := (saveBodyWeight_spec (151/2) [] 0).2.2.2
  simpa using h

/-! ## C9: the singleton user profile (saveUserProfile / getUserProfile) -/

structure StoredProfile where
  id : String
  goal : String
  facts : String
deriving DecidableEq, Repr

/-- The argument passed to saveUserProfile: its goal and facts fields may be
    absent, and its id field is arbitrary (the code ignores it). -/
structure RawProfile where
  id : String
  goal : Option String
  facts : Option String
deriving DecidableEq, Repr

/-- JavaScript string fallback s || d: undefined/null and "" are falsy. -/
def jsOrString (o : Option String) (d : String) : String :=
  match o with
  | none => d
  | some s => if s = "" then d else s

/-- The profileEntry built by saveUserProfile: id is the fixed key "user",
    goal and facts fall back to the empty string. -/
def normalizeProfile (p : RawProfile) : StoredProfile :=
  { id := "user", goal := jsOrString p.goal "", facts := jsOrString p.facts "" }

/-- IndexedDB put on the profile store (keyPath id): replace the record with
    the same key, or append. -/
def profilePut (store : List (String × StoredProfile)) (k : String)
    (v : StoredProfile) : List (String × StoredProfile) :=
  match store with
  | [] => [(k, v)]
  | e :: rest => if e.1 = k then (k, v) :: rest else e :: profilePut rest k v

/-- saveUserProfile: build the normalized entry and put it under its own id
    (which is always "user"). -/
def saveUserProfile (p : RawProfile) (store : List (String × StoredProfile)) :
    List (String × StoredProfile) :=
  let entry := normalizeProfile p
  profilePut store entry.id entry

/-- getUserProfile: store.get("user"), null when absent. -/
def getUserProfile (store : List (String × StoredProfile)) :
    Option StoredProfile :=
  (store.find? (fun e => e.1 = "user")).map (fun e => e.2)

lemma saveUserProfile_foldl_singleton :
    ∀ (ops : List RawProfile) (v : StoredProfile),
      ops.foldl (fun s p => saveUserProfile p s) [("user", v)] =
        [("user", ((ops.getLast?).map normalizeProfile).getD v)] := by
  intro ops
  induction ops with
  | nil => intro v; simp
  | cons p rest ih =>
    intro v
    have hstep : saveUserProfile p [("user", v)] = [("user", normalizeProfile p)] := by
      simp [saveUserProfile, profilePut, normalizeProfile]
    rw [List.foldl_cons, hstep, ih]
    cases rest with
    | nil => simp
    | cons q t =>
      rw [List.getLast?_cons_cons]
      rcases h : (q :: t).getLast? with _ | x
      · exact absurd (List.getLast?_eq_none_iff.mp h) (by simp)
      · simp [h]

/-- C9: every saveUserProfile stores its record under the fixed key "user"
    (with empty-string fallbacks for goal and facts), so after any sequence
    of profile writes the collection holds at most one record, and
    getUserProfile returns the most recently saved profile or none. -/
theorem userProfile_singleton :
    ∀ ops : List RawProfile,
      (ops.foldl (fun s p => saveUserProfile p s) []).length ≤ 1 ∧
      (∀ e ∈ ops.foldl (fun s p => saveUserProfile p s) [],
        e.1 = "user" ∧ e.2.id = "user") ∧
      getUserProfile (ops.foldl (fun s p => saveUserProfile p s) []) =
        (ops.getLast?).map normalizeProfile := by
  intro ops
  cases ops with
  | nil => simp [getUserProfile]
  | cons p rest =>
    have hstep : saveUserProfile p [] = [("user", normalizeProfile p)] := by
      simp [saveUserProfile, profilePut, normalizeProfile]
    have hfold : (p :: rest).foldl (fun s p => saveUserProfile p s) [] =
        [("user", ((rest.getLast?).map normalizeProfile).getD (normalizeProfile p))] := by
      rw [List.foldl_cons, hstep, saveUserProfile_foldl_singleton]
    refine ⟨by rw [hfold]; simp, ?_, ?_⟩
    · intro e he
      rw [hfold] at he
      simp at he
      subst he
      exact ⟨rfl, rfl⟩
    · rw [hfold]
      cases hrest : rest.getLast? with
      | none =>
        have : rest = [] := List.getLast?_eq_none_iff.mp hrest
        subst this
        simp [getUserProfile]
      | some q =>
        cases rest with
        | nil => simp at hrest
        | cons r t =>
          rw [List.getLast?_cons_cons, hrest]
          simp [getUserProfile, hrest]

/-- Witness for C9: two writes with exotic id fields leave exactly the last
    profile, stored under "user". -/
theorem userProfile_singleton_witness :
    getUserProfile
      ([{ id := "alice", goal := some "bulk", facts := none },
        { id := "bob", goal := none, facts := some "tall" }].foldl
          (fun s p => saveUserProfile p s) []) =
      some { id := "user", goal := "", facts := "tall" } := by
  have h := (userProfile_singleton
    [{ id := "alice", goal := some "bulk", facts := none },
     { id := "bob", goal := none, facts := some "tall" }]).2.2
  rw [h]
  decide

/-! ## Workout logs and the stable sort by timestamp, most recent first -/

/-- A WorkoutLogEntry (indexedDB.ts): isCardio models the optional
    type: "cardio" tag (present iff true). -/
structure WorkoutLogEntry where
  id : Option Nat := none
  exerciseId : String
  value : ℚ
  completed : Bool
  timestamp : ℤ
  sessionId : String
  isCardio : Bool := false
  time : Option ℚ := none
  pace : Option ℚ := none
deriving DecidableEq, Repr

/-- The ordering induced by the comparator (a, b) => b.timestamp - a.timestamp:
    a comes no later than b in sorted output iff b.timestamp ≤ a.timestamp. -/
def tsDescLog (a b : WorkoutLogEntry) : Prop := b.timestamp ≤ a.timestamp

instance : DecidableRel tsDescLog := fun a b =>
  inferInstanceAs (Decidable (b.timestamp ≤ a.timestamp))

instance : IsTotal WorkoutLogEntry tsDescLog :=
  ⟨fun a b => le_total b.timestamp a.timestamp⟩

instance : IsTrans WorkoutLogEntry tsDescLog :=
  ⟨fun _ _ _ h1 h2 => le_trans h2 h1⟩

/-! ## C5: progression reporting (Dashboard.loadData, formatWeightProgression) -/

inductive Trend
  | new
  | up
  | down
  | same
deriving DecidableEq, Repr

/-- Trend classification of formatWeightProgression (workoutStats.ts); the
    display string is presentation-only and omitted from the model. -/
def formatWeightProgressionTrend (current : ℚ) (previous : Option ℚ) : Trend :=
  match previous with
  | none => .new
  | some p => if current > p then .up else if current < p then .down else .same

/-- The completed logs of one exercise
    (allLogs.filter(log => log.exerciseId === exerciseId && log.completed === true)). -/
def completedFor (logs : List WorkoutLogEntry) (exerciseId : String) :
    List WorkoutLogEntry :=
  logs.filter (fun l => l.exerciseId == exerciseId && l.completed)

/-- Those logs sorted most-recent first ( .sort((a, b) => b.timestamp - a.timestamp) ). -/
def rankedFor (logs : List WorkoutLogEntry) (exerciseId : String) :
    List WorkoutLogEntry :=
  List.insertionSort tsDescLog (completedFor logs exerciseId)

structure ProgressionEntry where
  current : ℚ
  previous : ℚ
  timestamp : ℤ
deriving DecidableEq, Repr

/-- The per-exercise progression computed by Dashboard.loadData: current and
    previous are the values of the newest and second-newest completed log; an
    entry is put in the progression map only when a previous value exists and
    current > previous. -/
def dashboardProgressionFor (logs : List WorkoutLogEntry) (exerciseId : String) :
    Option ProgressionEntry :=
  match rankedFor logs exerciseId with
  | [] => none
  | [_] => none
  | a :: b :: _ =>
    if a.value > b.value then
      some { current := a.value, previous := b.value, timestamp := a.timestamp }
    else none

lemma two_le_length_iff {α : Type} (l : List α) :
    2 ≤ l.length ↔ ∃ a b rest, l = a :: b :: rest := by
  cases l with
  | nil => simp
  | cons a t =>
    cases t with
    | nil => simp
    | cons b rest =>
      simp only [List.length_cons]
      constructor
      · intro _; exact ⟨a, b, rest, rfl⟩
      · intro _; omega

/-- C5: a progression is reported for an exercise iff it has at least two
    completed logs and the newest value strictly exceeds the second-newest
    (both taken from the stable most-recent-first ordering); the reported
    entry carries exactly those two values; trend classification is new /
    up / down / same as claimed. -/
theorem progression_reported_iff :
    ∀ (logs : List WorkoutLogEntry) (exId : String),
      ((dashboardProgressionFor logs exId).isSome ↔
        ∃ a b rest, rankedFor logs exId = a :: b :: rest ∧ b.value < a.value) ∧
      (∀ a b rest, rankedFor logs exId = a :: b :: rest → b.value < a.value →
        dashboardProgressionFor logs exId =
          some { current := a.value, previous := b.value, timestamp := a.timestamp }) ∧
      (2 ≤ (completedFor logs exId).length ↔
        ∃ a b rest, rankedFor logs exId = a :: b :: rest) ∧
      (∀ c : ℚ, formatWeightProgressionTrend c none = Trend.new) ∧
      (∀ c p : ℚ,
        (p < c → formatWeightProgressionTrend c (some p) = Trend.up) ∧
        (c < p → formatWeightProgressionTrend c (some p) = Trend.down) ∧
        (c = p → formatWeightProgressionTrend c (some p) = Trend.same)) := by
  intro logs exId
  refine ⟨?_, ?_, ?_, ?_, ?_⟩
  · rcases h : rankedFor logs exId with _ | ⟨a, _ | ⟨b, rest⟩⟩
    · simp [dashboardProgressionFor, h]
    · simp [dashboardProgressionFor, h]
    · by_cases hv : a.value > b.value
      · simp only [dashboardProgressionFor, h, if_pos hv, Option.isSome_some,
          true_iff]
        exact ⟨a, b, rest, rfl, hv⟩
      · simp only [dashboardProgressionFor, h, if_neg hv, Option.isSome_none,
          Bool.false_eq_true, false_iff]
        rintro ⟨a2, b2, r2, heq, hlt⟩
        obtain ⟨rfl, rfl, -⟩ : a = a2 ∧ b = b2 ∧ rest = r2 := by simpa using heq
        exact hv hlt
  · intro a b rest h hv
    simp [dashboardProgressionFor, h, hv]
  · rw [show (completedFor logs exId).length = (rankedFor logs exId).length from
      ((List.perm_insertionSort tsDescLog (completedFor logs exId)).length_eq).symm]
    exact two_le_length_iff _
  · intro c; rfl
  · intro c p
    refine ⟨?_, ?_, ?_⟩
    · intro h; simp [formatWeightProgressionTrend, h]
    · intro h
      have h2 : ¬ c > p := not_lt.mpr (le_of_lt h)
      simp [formatWeightProgressionTrend, h2, h]
    · intro h; simp [formatWeightProgressionTrend, h]

def benchLogOld : WorkoutLogEntry :=
  { id := some 1, exerciseId := "bench", value := 65, completed := true,
    timestamp := 100, sessionId := "A" }

def benchLogNew : WorkoutLogEntry :=
  { id := some 2, exerciseId := "bench", value := 68, completed := true,
    timestamp := 400, sessionId := "A" }

def benchLogSkipped : WorkoutLogEntry :=
  { id := some 3, exerciseId := "bench", value := 70, completed := false,
    timestamp := 500, sessionId := "A" }

/-- Witness for C5: a concrete two-entry history reports the progression. -/
theorem progression_reported_iff_witness :
    dashboardProgressionFor [benchLogOld, benchLogNew, benchLogSkipped] "bench" =
      some { current := 68, previous := 65, timestamp := 400 } := by
  have h := (progression_reported_iff
    [benchLogOld, benchLogNew, benchLogSkipped] "bench").2.1
    benchLogNew benchLogOld [] (by decide) (by decide)
  simpa using h

/-! ## C4: completed-session grouping
    (getCompletedSessions in workoutStats.ts, groupWorkoutSessions in
    aiCoachExport.ts) -/

structure CompletedSession where
  sessionId : String
  sessionName : String
  timestamp : ℤ
deriving DecidableEq, Repr

/-- Ordering induced by the comparator (a, b) => b.timestamp - a.timestamp. -/
def csGe (a b : CompletedSession) : Prop := b.timestamp ≤ a.timestamp

instance : DecidableRel csGe := fun a b =>
  inferInstanceAs (Decidable (b.timestamp ≤ a.timestamp))

instance : IsTotal CompletedSession csGe :=
  ⟨fun a b => le_total b.timestamp a.timestamp⟩

instance : IsTrans CompletedSession csGe :=
  ⟨fun _ _ _ h1 h2 => le_trans h2 h1⟩

/-- JavaScript Map.set on a string-keyed association list: replace the entry
    with the same key in place, or append a new one. -/
def mapSet {α : Type} (m : List (String × α)) (k : String) (v : α) :
    List (String × α) :=
  match m with
  | [] => [(k, v)]
  | e :: rest => if e.1 = k then (k, v) :: rest else e :: mapSet rest k v

/-- JavaScript Map.get: the value stored at the first (and, in maps built by
    mapSet, only) occurrence of the key. -/
def mapGet {α : Type} (m : List (String × α)) (k : String) : Option α :=
  match m with
  | [] => none
  | e :: rest => if e.1 = k then some e.2 else mapGet rest k

/-- The sessionId → sessionName map built with forEach/set over the session
    catalog (modelled as (id, name) pairs). -/
def nameMapOf (catalog : List (String × String)) : List (String × String) :=
  catalog.foldl (fun m s => mapSet m s.1 s.2) []

/-- The grouping key: the dateKey string
    year-month-day-sessionId determines and is determined by the pair
    (calendar-day index, sessionId). -/
def logKey (l : WorkoutLogEntry) : ℤ × String := (dayIdx l.timestamp, l.sessionId)

/-- One step of getCompletedSessions' forEach: skip non-completed logs; for a
    new (day, session) key append (sessionId, timestamp); otherwise keep the
    earliest timestamp for that key. -/
def gcsStep (m : List ((ℤ × String) × String × ℤ)) (l : WorkoutLogEntry) :
    List ((ℤ × String) × String × ℤ) :=
  if l.completed then
    if (m.find? (fun e => e.1 = logKey l)).isSome then
      m.map (fun e =>
        if e.1 = logKey l ∧ l.timestamp < e.2.2 then (e.1, e.2.1, l.timestamp)
        else e)
    else m ++ [(logKey l, l.sessionId, l.timestamp)]
  else m

/-- Materialise one map entry as a CompletedSession record, resolving the
    display name (sessionNameMap.get(sessionId) || "Session " + sessionId). -/
def csRecordOf (catalog : List (String × String))
    (e : (ℤ × String) × String × ℤ) : CompletedSession :=
  { sessionId := e.2.1,
    sessionName :=
      jsOrString (mapGet (nameMapOf catalog) e.2.1) ("Session " ++ e.2.1),
    timestamp := e.2.2 }

/-- getCompletedSessions (workoutStats.ts): group completed logs by
    (calendar-day, sessionId) keeping the earliest timestamp per group, then
    sort most-recent first. -/
def getCompletedSessions (catalog : List (String × String))
    (logs : List WorkoutLogEntry) : List CompletedSession :=
  List.insertionSort csGe ((logs.foldl gcsStep []).map (csRecordOf catalog))

/-- The (calendar-day, sessionId) key of a produced record. -/
def csKey (r : CompletedSession) : ℤ × String := (dayIdx r.timestamp, r.sessionId)

structure WorkoutExercise where
  exerciseId : String
  exerciseName : String
  value : ℚ
  unit : String
  allSetsCompletedSuccessfully : Bool
deriving DecidableEq, Repr

structure CardioInfo where
  type : String
  time : Option ℚ
  pace : Option ℚ
deriving DecidableEq, Repr

/-- The mutable per-group state of groupWorkoutSessions. -/
structure GroupAcc where
  sessionId : String
  timestamp : ℤ
  exercises : List (String × WorkoutExercise)
  cardio : Option CardioInfo
deriving DecidableEq, Repr

/-- The body of groupWorkoutSessions' forEach once the group entry exists: a
    cardio log overwrites the cardio payload and moves the representative
    timestamp to the latest cardio timestamp; a regular log upserts the
    exercise by id and moves the representative timestamp to the earliest. -/
def gwsUpdate (exMap : List (String × String)) (a : GroupAcc)
    (l : WorkoutLogEntry) : GroupAcc :=
  if l.isCardio then
    let a1 := { a with
      cardio := some { type := l.sessionId, time := l.time, pace := l.pace } }
    if a1.timestamp < l.timestamp then { a1 with timestamp := l.timestamp } else a1
  else
    let exerciseName := jsOrString (mapGet exMap l.exerciseId) l.exerciseId
    let a1 := { a with
      exercises := mapSet a.exercises l.exerciseId
        { exerciseId := l.exerciseId, exerciseName := exerciseName,
          value := l.value, unit := "kg",
          allSetsCompletedSuccessfully := l.completed } }
    if l.timestamp < a1.timestamp then { a1 with timestamp := l.timestamp } else a1

/-- One step of groupWorkoutSessions' forEach: create the group entry for a
    fresh (day, session) key, then update it with the current log.  Note that
    this grouping does NOT look at log.completed. -/
def gwsStep (exMap : List (String × String))
    (m : List ((ℤ × String) × GroupAcc)) (l : WorkoutLogEntry) :
    List ((ℤ × String) × GroupAcc) :=
  let k := logKey l
  let m1 :=
    if (m.find? (fun e => e.1 = k)).isSome then m
    else m ++ [(k, { sessionId := l.sessionId, timestamp := l.timestamp,
                     exercises := [], cardio := none })]
  m1.map (fun e => if e.1 = k then (k, gwsUpdate exMap e.2 l) else e)

/-- A grouped session as exported to the AI coach; date models
    formatDate(timestamp) (the ISO day string) as the UTC midnight of that
    day, which is exactly new Date(dateString).getTime(). -/
structure GroupedSession where
  date : ℤ
  sessionId : String
  sessionName : String
  exercises : List WorkoutExercise
  cardio : Option CardioInfo
deriving DecidableEq, Repr

/-- Ordering induced by (a, b) => new Date(b.date) - new Date(a.date). -/
def gsGe (a b : GroupedSession) : Prop := b.date ≤ a.date

instance : DecidableRel gsGe := fun a b =>
  inferInstanceAs (Decidable (b.date ≤ a.date))

instance : IsTotal GroupedSession gsGe := ⟨fun a b => le_total b.date a.date⟩

instance : IsTrans GroupedSession gsGe := ⟨fun _ _ _ h1 h2 => le_trans h2 h1⟩

/-- groupWorkoutSessions (aiCoachExport.ts): group ALL logs (completed or
    not) by (calendar-day, sessionId), with the cardio/earliest-timestamp
    rules of gwsUpdate, resolve names (with fixed Running/Floorball entries
    added to the name map), and sort by day, most recent first. -/
def groupWorkoutSessions (logs : List WorkoutLogEntry)
    (exercises : List (String × String)) (sessions : List (String × String)) :
    List GroupedSession :=
  let exMap := nameMapOf exercises
  let nm := mapSet (mapSet (nameMapOf sessions) "running" "Running")
    "floorball" "Floorball"
  List.insertionSort gsGe ((logs.foldl (gwsStep exMap) []).map (fun e =>
    { date := dayStart e.2.timestamp, sessionId := e.2.sessionId,
      sessionName :=
        jsOrString (mapGet nm e.2.sessionId) ("Session " ++ e.2.sessionId),
      exercises := e.2.exercises.map (fun x => x.2), cardio := e.2.cardio }))

def cardioRun1 : WorkoutLogEntry :=
  { id := some 10, exerciseId := "", value := 0, completed := true,
    timestamp := 1000000000000, sessionId := "running", isCardio := true,
    time := some 1800, pace := some 5 }

def cardioRun2 : WorkoutLogEntry :=
  { id := some 11, exerciseId := "", value := 0, completed := true,
    timestamp := 1000000300000, sessionId := "running", isCardio := true,
    time := some 2100, pace := some 5 }

def uncompletedBench : WorkoutLogEntry :=
  { id := some 12, exerciseId := "bench", value := 60, completed := false,
    timestamp := 1000000000000, sessionId := "A" }

/-- C4 counterexample: no single grouping function has all the claimed
    properties.  getCompletedSessions keeps the EARLIEST timestamp even for a
    group of type:"cardio" logs (two same-day completed cardio logs 5 minutes
    apart yield the earlier timestamp, not the later one as claimed); the
    cardio-latest rule lives in groupWorkoutSessions, which however does not
    restrict to completed=true logs (a single non-completed log still
    produces a grouped record). -/
theorem completedGrouping_counterexample :
    ((getCompletedSessions [] [cardioRun1, cardioRun2]).map
        (fun r => r.timestamp) = [1000000000000]) ∧
    (1000000000000 : ℤ) ≠ 1000000300000 ∧
    (groupWorkoutSessions [uncompletedBench] [] []).length = 1 := by
  decide

/-- Invariant of getCompletedSessions' grouping fold over the processed
    prefix of the log list: the accumulated keys are distinct and are exactly
    the (calendar-day, sessionId) keys of the completed logs seen so far, and
    each entry carries its key's sessionId together with the minimum
    timestamp of its group. -/
def GcsInv (m : List ((ℤ × String) × String × ℤ))
    (logs : List WorkoutLogEntry) : Prop :=
  (m.map Prod.fst).Nodup ∧
  (∀ k, k ∈ m.map Prod.fst ↔
    ∃ l, l ∈ logs ∧ l.completed = true ∧ logKey l = k) ∧
  (∀ e ∈ m, e.2.1 = e.1.2 ∧
    (∃ l, l ∈ logs ∧ l.completed = true ∧ logKey l = e.1 ∧
      l.timestamp = e.2.2) ∧
    (∀ l, l ∈ logs → l.completed = true → logKey l = e.1 →
      e.2.2 ≤ l.timestamp))

lemma gcsStep_inv {m : List ((ℤ × String) × String × ℤ)}
    {logs : List WorkoutLogEntry} (l : WorkoutLogEntry)
    (h : GcsInv m logs) : GcsInv (gcsStep m l) (logs ++ [l]) := by
  unfold GcsInv at h ⊢
  obtain ⟨hnd, hkeys, hvals⟩ := h
  by_cases hc : l.completed = true
  · by_cases hf : (m.find? (fun e => e.1 = logKey l)).isSome = true
    · -- the key is already present: in-place minimum update
      have hmem : logKey l ∈ m.map Prod.fst := by
        obtain ⟨e, he, hpe⟩ := List.find?_isSome.mp hf
        have h2 : e.1 = logKey l := by simpa using hpe
        exact h2 ▸ List.mem_map.mpr ⟨e, he, rfl⟩
      have hstep : gcsStep m l = m.map (fun e =>
          if e.1 = logKey l ∧ l.timestamp < e.2.2 then (e.1, e.2.1, l.timestamp)
          else e) := by
        simp [gcsStep, hc, hf]
      have hfst : (m.map (fun e =>
          if e.1 = logKey l ∧ l.timestamp < e.2.2 then (e.1, e.2.1, l.timestamp)
          else e)).map Prod.fst = m.map Prod.fst := by
        rw [List.map_map]
        apply List.map_congr_left
        intro e _
        by_cases h2 : e.1 = logKey l ∧ l.timestamp < e.2.2
        · simp [h2]
        · simp [h2]
      rw [hstep]
      refine ⟨by rw [hfst]; exact hnd, ?_, ?_⟩
      · intro k
        rw [hfst, hkeys k]
        constructor
        · rintro ⟨l2, hl2, h3, h4⟩
          exact ⟨l2, List.mem_append_left _ hl2, h3, h4⟩
        · rintro ⟨l2, hl2, h3, h4⟩
          rcases List.mem_append.mp hl2 with h5 | h5
          · exact ⟨l2, h5, h3, h4⟩
          · have h6 : l2 = l := by simpa using h5
            subst h6
            exact (hkeys k).mp (h4 ▸ hmem)
      · intro e2 he2
        obtain ⟨e, he, heq⟩ := List.mem_map.mp he2
        obtain ⟨hsid, ⟨l2, hl2, hcpl2, hkey2, hts2⟩, hmin⟩ := hvals e he
        by_cases h2 : e.1 = logKey l ∧ l.timestamp < e.2.2
        · rw [if_pos h2] at heq
          subst heq
          refine ⟨hsid, ⟨l, List.mem_append_right _ (by simp), hc,
            h2.1.symm, rfl⟩, ?_⟩
          intro l3 hl3 hc3 hk3
          rcases List.mem_append.mp hl3 with h5 | h5
          · exact le_trans (le_of_lt h2.2) (hmin l3 h5 hc3 hk3)
          · have h6 : l3 = l := by simpa using h5
            subst h6
            exact le_refl _
        · rw [if_neg h2] at heq
          subst heq
          refine ⟨hsid, ⟨l2, List.mem_append_left _ hl2, hcpl2, hkey2, hts2⟩, ?_⟩
          intro l3 hl3 hc3 hk3
          rcases List.mem_append.mp hl3 with h5 | h5
          · exact hmin l3 h5 hc3 hk3
          · have h6 : l3 = l := by simpa using h5
            subst h6
            have h7 : ¬ l3.timestamp < e.2.2 := fun hlt => h2 ⟨hk3.symm, hlt⟩
            exact not_lt.mp h7
    · -- fresh key: append a new group entry
      have hnotmem : logKey l ∉ m.map Prod.fst := by
        intro hmem2
        obtain ⟨e, he, hfste⟩ := List.mem_map.mp hmem2
        exact hf (List.find?_isSome.mpr ⟨e, he, by simp [hfste]⟩)
      have hstep : gcsStep m l = m ++ [(logKey l, l.sessionId, l.timestamp)] := by
        simp [gcsStep, hc, hf]
      rw [hstep]
      refine ⟨?_, ?_, ?_⟩
      · rw [List.map_append, List.nodup_append]
        refine ⟨hnd, by simp, ?_⟩
        intro a ha hb
        have h2 : a = logKey l := by simpa using hb
        subst h2
        exact hnotmem ha
      · intro k
        rw [List.map_append]
        constructor
        · intro hk
          rcases List.mem_append.mp hk with h5 | h5
          · obtain ⟨l2, hl2, h6, h7⟩ := (hkeys k).mp h5
            exact ⟨l2, List.mem_append_left _ hl2, h6, h7⟩
          · have h6 : k = logKey l := by simpa using h5
            subst h6
            exact ⟨l, List.mem_append_right _ (by simp), hc, rfl⟩
        · rintro ⟨l2, hl2, h6, h7⟩
          rcases List.mem_append.mp hl2 with h5 | h5
          · exact List.mem_append_left _ ((hkeys k).mpr ⟨l2, h5, h6, h7⟩)
          · have h8 : l2 = l := by simpa using h5
            subst h8
            subst h7
            exact List.mem_append_right _ (by simp)
      · intro e2 he2
        rcases List.mem_append.mp he2 with h5 | h5
        · obtain ⟨hsid, ⟨l2, hl2, hc2, hk2, ht2⟩, hmin⟩ := hvals e2 h5
          refine ⟨hsid, ⟨l2, List.mem_append_left _ hl2, hc2, hk2, ht2⟩, ?_⟩
          intro l3 hl3 hc3 hk3
          rcases List.mem_append.mp hl3 with h6 | h6
          · exact hmin l3 h6 hc3 hk3
          · have h8 : l3 = l := by simpa using h6
            subst h8
            exact absurd (hk3 ▸ List.mem_map.mpr ⟨e2, h5, rfl⟩) hnotmem
        · have h8 : e2 = (logKey l, l.sessionId, l.timestamp) := by simpa using h5
          subst h8
          refine ⟨rfl, ⟨l, List.mem_append_right _ (by simp), hc, rfl, rfl⟩, ?_⟩
          intro l3 hl3 hc3 hk3
          rcases List.mem_append.mp hl3 with h6 | h6
          · exact absurd ((hkeys (logKey l)).mpr ⟨l3, h6, hc3, hk3⟩) hnotmem
          · have h8 : l3 = l := by simpa using h6
            subst h8
            exact le_refl _
  · -- non-completed logs are skipped entirely
    have hstep : gcsStep m l = m := by simp [gcsStep, hc]
    rw [hstep]
    refine ⟨hnd, ?_, ?_⟩
    · intro k
      rw [hkeys k]
      constructor
      · rintro ⟨l2, hl2, h3, h4⟩
        exact ⟨l2, List.mem_append_left _ hl2, h3, h4⟩
      · rintro ⟨l2, hl2, h3, h4⟩
        rcases List.mem_append.mp hl2 with h5 | h5
        · exact ⟨l2, h5, h3, h4⟩
        · have h6 : l2 = l := by simpa using h5
          subst h6
          exact absurd h3 hc
    · intro e he
      obtain ⟨h1, ⟨l2, hl2, hcpl, hkey, hts⟩, hmin⟩ := hvals e he
      refine ⟨h1, ⟨l2, List.mem_append_left _ hl2, hcpl, hkey, hts⟩, ?_⟩
      intro l3 hl3 hc3 hk3
      rcases List.mem_append.mp hl3 with h5 | h5
      · exact hmin l3 h5 hc3 hk3
      · have h6 : l3 = l := by simpa using h5
        subst h6
        exact absurd hc3 hc

lemma gcs_fold_inv (logs : List WorkoutLogEntry) :
    GcsInv (logs.foldl gcsStep []) logs := by
  have main : ∀ (rest pre : List WorkoutLogEntry)
      (m : List ((ℤ × String) × String × ℤ)),
      GcsInv m pre → GcsInv (rest.foldl gcsStep m) (pre ++ rest) := by
    intro rest
    induction rest with
    | nil => intro pre m h; simpa using h
    | cons l t ih =>
      intro pre m h
      have h3 := ih (pre ++ [l]) (gcsStep m l) (gcsStep_inv l h)
      simpa [List.append_assoc] using h3
  have hnil : GcsInv [] [] := by
    unfold GcsInv
    refine ⟨by simp, by simp, by simp⟩
  simpa using main logs [] [] hnil

lemma mapGet_mapSet_ne {α : Type} (m : List (String × α)) {k k2 : String}
    (v : α) (h : k2 ≠ k) : mapGet (mapSet m k v) k2 = mapGet m k2 := by
  induction m with
  | nil => simp [mapSet, mapGet, Ne.symm h]
  | cons e rest ih =>
    by_cases h2 : e.1 = k
    · simp [mapSet, h2, mapGet, Ne.symm h]
    · simp [mapSet, h2, mapGet, ih]

lemma nameMapOf_not_mem {sid : String} :
    ∀ catalog : List (String × String), sid ∉ catalog.map Prod.fst →
      mapGet (nameMapOf catalog) sid = none := by
  have main : ∀ (catalog acc : List (String × String)),
      sid ∉ catalog.map Prod.fst → mapGet acc sid = none →
      mapGet (catalog.foldl (fun m s => mapSet m s.1 s.2) acc) sid = none := by
    intro catalog
    induction catalog with
    | nil => intro acc _ h2; simpa using h2
    | cons s t ih =>
      intro acc h1 h2
      simp only [List.map_cons, List.mem_cons, not_or] at h1
      rw [List.foldl_cons]
      exact ih (mapSet acc s.1 s.2) h1.2
        (by rw [mapGet_mapSet_ne _ _ h1.1]; exact h2)
  intro catalog h
  exact main catalog [] h rfl

def dayLogA1 : WorkoutLogEntry :=
  { id := some 20, exerciseId := "bench", value := 60, completed := true,
    timestamp := 1000000000000, sessionId := "A" }

def dayLogA2 : WorkoutLogEntry :=
  { id := some 21, exerciseId := "row", value := 40, completed := true,
    timestamp := 1000000300000, sessionId := "A" }

/-- C4 (amended): getCompletedSessions considers only completed=true logs,
    groups them by (calendar-day, sessionId), keeps for each group the
    EARLIEST timestamp — with no exception for cardio entries — and returns
    one record per group sorted descending by that representative timestamp,
    with display name falling back to "Session " ++ id when the session id is
    not in the catalog; two completed logs for session "A" at day0 and
    day0+5min yield one record for day0/"A" with timestamp day0.  (The
    cardio-keeps-latest rule belongs to groupWorkoutSessions, which does not
    filter on completed.) -/
theorem getCompletedSessions_spec :
    ∀ (catalog : List (String × String)) (logs : List WorkoutLogEntry),
      List.Sorted csGe (getCompletedSessions catalog logs) ∧
      ((getCompletedSessions catalog logs).map csKey).Nodup ∧
      (∀ k, k ∈ (getCompletedSessions catalog logs).map csKey ↔
        ∃ l, l ∈ logs ∧ l.completed = true ∧ logKey l = k) ∧
      (∀ r ∈ getCompletedSessions catalog logs,
        (∃ l, l ∈ logs ∧ l.completed = true ∧ logKey l = csKey r ∧
          l.timestamp = r.timestamp) ∧
        (∀ l, l ∈ logs → l.completed = true → logKey l = csKey r →
          r.timestamp ≤ l.timestamp) ∧
        (r.sessionId ∉ catalog.map Prod.fst →
          r.sessionName = "Session " ++ r.sessionId)) ∧
      getCompletedSessions [("B", "Bench Day")] [dayLogA1, dayLogA2] =
        [{ sessionId := "A", sessionName := "Session A",
           timestamp := 1000000000000 }] := by
  intro catalog logs
  obtain ⟨hnd, hkeys, hvals⟩ := gcs_fold_inv logs
  have hrecKey : ∀ e ∈ logs.foldl gcsStep [],
      csKey (csRecordOf catalog e) = e.1 := by
    intro e he
    obtain ⟨hsid, ⟨l2, _, _, hk2, ht2⟩, _⟩ := hvals e he
    have hday : dayIdx e.2.2 = e.1.1 := by
      rw [← ht2]
      simpa [logKey] using congrArg Prod.fst hk2
    show (dayIdx e.2.2, e.2.1) = e.1
    rw [hday, hsid]
  have hmapkey : ((logs.foldl gcsStep []).map (csRecordOf catalog)).map csKey
      = (logs.foldl gcsStep []).map Prod.fst := by
    rw [List.map_map]
    exact List.map_congr_left (fun e he => hrecKey e he)
  have hperm : List.Perm (getCompletedSessions catalog logs)
      ((logs.foldl gcsStep []).map (csRecordOf catalog)) :=
    List.perm_insertionSort _ _
  have hpermKey : List.Perm ((getCompletedSessions catalog logs).map csKey)
      ((logs.foldl gcsStep []).map Prod.fst) :=
    hmapkey ▸ hperm.map csKey
  refine ⟨?_, ?_, ?_, ?_, ?_⟩
  · exact List.sorted_insertionSort csGe _
  · exact hpermKey.nodup_iff.mpr hnd
  · intro k
    rw [hpermKey.mem_iff]
    exact hkeys k
  · intro r hr
    have hr2 : r ∈ (logs.foldl gcsStep []).map (csRecordOf catalog) :=
      hperm.mem_iff.mp hr
    obtain ⟨e, he, heq⟩ := List.mem_map.mp hr2
    subst heq
    obtain ⟨hsid, hex, hmin⟩ := hvals e he
    have hkey := hrecKey e he
    refine ⟨?_, ?_, ?_⟩
    · obtain ⟨l2, h1, h2, h3, h4⟩ := hex
      exact ⟨l2, h1, h2, by rw [hkey]; exact h3, h4⟩
    · intro l3 h1 h2 h3
      rw [hkey] at h3
      exact hmin l3 h1 h2 h3
    · intro hnm
      have h9 : mapGet (nameMapOf catalog) e.2.1 = none :=
        nameMapOf_not_mem catalog hnm
      simp [csRecordOf, jsOrString, h9]
  · decide

def demoCsRecord : CompletedSession :=
  { sessionId := "A", sessionName := "Session A", timestamp := 1000000000000 }

/-- Witness for C4: the minimum-timestamp property of the amended theorem
    applied to the concrete two-log example. -/
theorem getCompletedSessions_spec_witness :
    demoCsRecord.timestamp ≤ dayLogA2.timestamp := by
  have h := (getCompletedSessions_spec [("B", "Bench Day")]
    [dayLogA1, dayLogA2]).2.2.2.1
  exact (h demoCsRecord (by decide)).2.1 dayLogA2 (by decide) (by decide)
    (by decide)

/-! ## C3 and C10: getWorkoutStatus (workoutStatus.ts) -/

structure WorkoutStatus where
  daysSinceLastWorkout : ℤ
  hasWorkoutToday : Bool
  hasWorkoutYesterday : Bool
  streak : Nat
deriving DecidableEq, Repr

/-- Ordering for the date sort .sort((a, b) => b - a). -/
def intGe (a b : ℤ) : Prop := b ≤ a

instance : DecidableRel intGe := fun a b =>
  inferInstanceAs (Decidable (b ≤ a))

instance : IsTotal ℤ intGe := ⟨fun a b => le_total b a⟩

instance : IsTrans ℤ intGe := ⟨fun _ _ _ h1 h2 => le_trans h2 h1⟩

/-- The streak loop: for each workout date (sorted most recent first),
    diffDays = floor((currentDate - workoutDate) / oneDay) is compared with
    the consecutive-day count so far; on a match the count grows and
    currentDate moves to that date, otherwise the loop breaks. -/
def streakWalk : List ℤ → ℤ → Nat → Nat
  | [], _, consecutiveDays => consecutiveDays
  | w :: rest, currentDate, consecutiveDays =>
    if (currentDate - w).fdiv oneDay = (consecutiveDays : ℤ) then
      streakWalk rest w (consecutiveDays + 1)
    else consecutiveDays

/-- getWorkoutStatus: today/yesterday flags from half-open day windows; the
    sentinel 999 (with streak 0) for an empty list, else the floored day
    difference to the FIRST list element; the streak from the walk over the
    distinct workout days sorted most recent first.  (The JS Set-based dedup
    keeps first occurrences, List.dedup keeps last ones; after the sort both
    yield the same list — sorted duplicate-free lists over the same set are
    equal — so the model is exact.) -/
def getWorkoutStatus (now : ℤ) (completedSessions : List CompletedSession) :
    WorkoutStatus :=
  let todayStart := dayStart now
  let todayEnd := todayStart + oneDay
  let yesterdayStart := todayStart - oneDay
  let hasWorkoutToday := completedSessions.any
    (fun s => decide (todayStart ≤ s.timestamp) && decide (s.timestamp < todayEnd))
  let hasWorkoutYesterday := completedSessions.any
    (fun s => decide (yesterdayStart ≤ s.timestamp) &&
      decide (s.timestamp < todayStart))
  let daysSinceLastWorkout : ℤ :=
    match completedSessions with
    | [] => 999
    | s :: _ => (todayStart - dayStart s.timestamp).fdiv oneDay
  let streak : Nat :=
    match completedSessions with
    | [] => 0
    | _ :: _ =>
      let sortedDates := List.insertionSort intGe
        ((completedSessions.map (fun s => dayStart s.timestamp)).dedup)
      streakWalk sortedDates todayStart 0
  { daysSinceLastWorkout := daysSinceLastWorkout,
    hasWorkoutToday := hasWorkoutToday,
    hasWorkoutYesterday := hasWorkoutYesterday,
    streak := streak }

/-- A completed session at hour 1 of calendar day d. -/
def streakSession (d : ℤ) : CompletedSession :=
  { sessionId := "A", sessionName := "Session A",
    timestamp := oneDay * d + 3600000 }

/-- C3: evaluating the streak code at the claimed inputs.  With sessions on
    days {today, today-1, today-2} the loop compares the one-day gap between
    day today-1 and day today-2 against the running count 2 and breaks, so
    the computed streak is 2, not 3 as the claim (and the code's own
    "consecutive days" comments) state; with {today-1, today-2} the streak is
    0 and hasWorkoutYesterday is true as claimed; and the non-consecutive set
    {today, today-1, today-3} even yields streak 3. -/
theorem getWorkoutStatus_streak_bug :
    (getWorkoutStatus (oneDay * 20000 + 43200000)
      [streakSession 20000, streakSession 19999, streakSession 19998]).streak
        = 2 ∧
    (2 : Nat) ≠ 3 ∧
    (getWorkoutStatus (oneDay * 20000 + 43200000)
      [streakSession 19999, streakSession 19998]).streak = 0 ∧
    (getWorkoutStatus (oneDay * 20000 + 43200000)
      [streakSession 19999, streakSession 19998]).hasWorkoutYesterday = true ∧
    (getWorkoutStatus (oneDay * 20000 + 43200000)
      [streakSession 20000, streakSession 19999, streakSession 19997]).streak
        = 3 := by
  decide

/-- C10 counterexample: daysSinceLastWorkout is not 999 ONLY for the empty
    list — a single session exactly 999 days old also produces 999. -/
theorem daysSince_999_nonempty :
    (getWorkoutStatus (oneDay * 20000 + 43200000)
      [streakSession 19001]).daysSinceLastWorkout = 999 ∧
    ([streakSession 19001] : List CompletedSession) ≠ [] := by
  decide

/-- C10 (amended): for the empty list getWorkoutStatus returns the sentinel
    999 with streak 0 and both flags false; for a non-empty list
    daysSinceLastWorkout is the floored whole number of calendar days between
    the FIRST list element's day (the most recent session when the list is
    sorted most-recent first, as getCompletedSessions produces it) and today
    — a value that can itself be 999. -/
theorem getWorkoutStatus_daysSince_spec :
    ∀ (now : ℤ) (cs : List CompletedSession),
      (cs = [] → getWorkoutStatus now cs =
        { daysSinceLastWorkout := 999, hasWorkoutToday := false,
          hasWorkoutYesterday := false, streak := 0 }) ∧
      (∀ s rest, cs = s :: rest →
        (getWorkoutStatus now cs).daysSinceLastWorkout =
          (dayStart now - dayStart s.timestamp).fdiv oneDay) := by
  intro now cs
  constructor
  · rintro rfl
    rfl
  · rintro s rest rfl
    rfl

/-- Witness for C10: both branches of the theorem at concrete inputs. -/
theorem getWorkoutStatus_daysSince_spec_witness :
    (getWorkoutStatus 43200000 []).daysSinceLastWorkout = 999 ∧
    (getWorkoutStatus (oneDay * 20000)
        [streakSession 19001]).daysSinceLastWorkout =
      (dayStart (oneDay * 20000) -
        dayStart (streakSession 19001).timestamp).fdiv oneDay := by
  constructor
  · rw [(getWorkoutStatus_daysSince_spec 43200000 []).1 rfl]
  · exact (getWorkoutStatus_daysSince_spec (oneDay * 20000)
      [streakSession 19001]).2 (streakSession 19001) [] rfl

/-! ## C2 and C6: backup export and import (indexedDB.ts) -/

/-- An exercise record as stored: put fails (DataError) exactly when the key
    path yields no value, so a stored record always has an id; nothing forces
    a name to be present. -/
structure StoredExercise where
  id : String
  name : Option String
deriving DecidableEq, Repr

/-- An exercise as found in a backup document: either field may be missing. -/
structure RawExercise where
  id : Option String
  name : Option String
deriving DecidableEq, Repr

/-- A stored workout log always carries its auto-assigned (or imported) key. -/
structure StoredLog where
  id : Nat
  exerciseId : String
  value : ℚ
  completed : Bool
  timestamp : ℤ
  sessionId : String
  isCardio : Bool
  time : Option ℚ
  pace : Option ℚ
deriving DecidableEq, Repr

/-- The two collections touched by backup export/import, plus the
    auto-increment key generator of the workoutLogs store. -/
structure Store where
  exercises : List StoredExercise
  logs : List StoredLog
  nextLogId : Nat
deriving DecidableEq, Repr

def emptyStore : Store := { exercises := [], logs := [], nextLogId := 1 }

/-- IndexedDB put on the exercises store (keyPath id): upsert by key. -/
def exercisePut (es : List StoredExercise) (i : String) (n : Option String) :
    List StoredExercise :=
  match es with
  | [] => [{ id := i, name := n }]
  | e :: rest =>
    if e.id = i then { id := i, name := n } :: rest
    else e :: exercisePut rest i n

/-- saveExercise: put the record; the only failing case is a record whose key
    path yields no value (missing id). -/
def saveExercise (e : RawExercise) (s : Store) : Except String Store :=
  match e.id with
  | none => .error "Failed to save exercise"
  | some i => .ok { s with exercises := exercisePut s.exercises i e.name }

/-- The object written into the workoutLogs store: the record with its key
    injected under the keyPath id. -/
def rawToStored (i : Nat) (ts : ℤ) (l : WorkoutLogEntry) : StoredLog :=
  { id := i, exerciseId := l.exerciseId, value := l.value,
    completed := l.completed, timestamp := ts, sessionId := l.sessionId,
    isCardio := l.isCardio, time := l.time, pace := l.pace }

/-- The per-log write of importBackup: the entry keeps the backup timestamp
    unless it is falsy (log.timestamp || Date.now()); add with an explicit
    key fails when that key already exists and bumps the key generator past
    it, and a missing key is auto-assigned. -/
def importLogAdd (l : WorkoutLogEntry) (now : ℤ) (s : Store) :
    Except String Store :=
  let ts := if l.timestamp = 0 then now else l.timestamp
  match l.id with
  | some i =>
    if i ∈ s.logs.map (fun x => x.id) then .error "Failed to import workout log"
    else .ok { s with logs := s.logs ++ [rawToStored i ts l],
                      nextLogId := max s.nextLogId (i + 1) }
  | none => .ok { s with logs := s.logs ++ [rawToStored s.nextLogId ts l],
                         nextLogId := s.nextLogId + 1 }

/-- Ordering induced by the comparator (a, b) => b.timestamp - a.timestamp. -/
def tsDescStored (a b : StoredLog) : Prop := b.timestamp ≤ a.timestamp

instance : DecidableRel tsDescStored := fun a b =>
  inferInstanceAs (Decidable (b.timestamp ≤ a.timestamp))

instance : IsTotal StoredLog tsDescStored :=
  ⟨fun a b => le_total b.timestamp a.timestamp⟩

instance : IsTrans StoredLog tsDescStored :=
  ⟨fun _ _ _ h1 h2 => le_trans h2 h1⟩

/-- getAllWorkoutLogs: full scan sorted most-recent first. -/
def getAllWorkoutLogs (s : Store) : List StoredLog :=
  List.insertionSort tsDescStored s.logs

/-- getAllExercises: full scan. -/
def getAllExercises (s : Store) : List StoredExercise := s.exercises

structure BackupData where
  version : String
  exportDate : ℤ
  exercises : List StoredExercise
  workoutLogs : List StoredLog
deriving DecidableEq, Repr

/-- exportBackup: snapshot both collections. -/
def exportBackup (s : Store) (now : ℤ) : BackupData :=
  { version := "1.0.0", exportDate := now,
    exercises := getAllExercises s, workoutLogs := getAllWorkoutLogs s }

/-- A backup document as parsed from JSON: either array may be absent. -/
structure RawBackup where
  exercises : Option (List RawExercise)
  workoutLogs : Option (List WorkoutLogEntry)
deriving DecidableEq, Repr

structure ImportResult where
  success : Bool
  exercisesImported : Nat
  workoutLogsImported : Nat
  error : Option String
deriving DecidableEq, Repr

/-- A stored log re-read as a backup record. -/
def logToRaw (l : StoredLog) : WorkoutLogEntry :=
  { id := some l.id, exerciseId := l.exerciseId, value := l.value,
    completed := l.completed, timestamp := l.timestamp,
    sessionId := l.sessionId, isCardio := l.isCardio, time := l.time,
    pace := l.pace }

def exerciseToRaw (e : StoredExercise) : RawExercise :=
  { id := some e.id, name := e.name }

/-- An exported document, seen through the permissive import shape. -/
def backupToRaw (b : BackupData) : RawBackup :=
  { exercises := some (b.exercises.map exerciseToRaw),
    workoutLogs := some (b.workoutLogs.map logToRaw) }

/-- The exercise import loop: attempt each write, count successes, continue
    past individual failures. -/
def importExercisesLoop (s : Store) (c : Nat) :
    List RawExercise → Nat × Store
  | [] => (c, s)
  | e :: rest =>
    match saveExercise e s with
    | .ok s2 => importExercisesLoop s2 (c + 1) rest
    | .error _ => importExercisesLoop s c rest

/-- The workout-log import loop: attempt each write, count successes,
    continue past individual failures. -/
def importLogsLoop (now : ℤ) (s : Store) (c : Nat) :
    List WorkoutLogEntry → Nat × Store
  | [] => (c, s)
  | l :: rest =>
    match importLogAdd l now s with
    | .ok s2 => importLogsLoop now s2 (c + 1) rest
    | .error _ => importLogsLoop now s c rest

/-- importBackup: fail fast (before any write) when either required array is
    absent; otherwise run both loops and report success with per-collection
    counts. -/
def importBackup (raw : RawBackup) (s : Store) (now : ℤ) :
    ImportResult × Store :=
  match raw.exercises, raw.workoutLogs with
  | some exs, some logs =>
    let r1 := importExercisesLoop s 0 exs
    let r2 := importLogsLoop now r1.2 0 logs
    ({ success := true, exercisesImported := r1.1,
       workoutLogsImported := r2.1, error := none }, r2.2)
  | _, _ =>
    ({ success := false, exercisesImported := 0, workoutLogsImported := 0,
       error := some "Invalid backup file format" }, s)

/-- A stored log whose timestamp is the falsy value 0. -/
def zeroTsLog : StoredLog :=
  { id := 1, exerciseId := "e", value := 5, completed := true,
    timestamp := 0, sessionId := "A", isCardio := false, time := none,
    pace := none }

/-- A store holding one log whose timestamp is the falsy value 0. -/
def zeroTsStore : Store :=
  { exercises := [], logs := [zeroTsLog], nextLogId := 2 }

/-- C2 counterexample: export/import preserves counts, but a log whose
    timestamp is 0 is NOT written verbatim — log.timestamp || Date.now()
    treats 0 as missing and substitutes the import time. -/
theorem roundTrip_timestamp_not_verbatim :
    ((importBackup (backupToRaw (exportBackup zeroTsStore 111)) emptyStore
        7777).2.logs.map (fun l => l.timestamp) = [7777]) ∧
    (zeroTsStore.logs.map (fun l => l.timestamp) = [0]) ∧
    ((7777 : ℤ) ≠ 0) := by
  decide

lemma exercisePut_fresh :
    ∀ (es : List StoredExercise) (i : String) (n : Option String),
      i ∉ es.map (fun x => x.id) →
      exercisePut es i n = es ++ [{ id := i, name := n }] := by
  intro es
  induction es with
  | nil => intro i n _; rfl
  | cons a rest ih =>
    intro i n h
    simp only [List.map_cons, List.mem_cons, not_or] at h
    rw [exercisePut, if_neg (fun h2 => h.1 h2.symm), ih i n h.2]
    rfl

lemma importExercisesLoop_fresh :
    ∀ (exs : List StoredExercise) (s : Store) (c : Nat),
      (∀ e ∈ exs, e.id ∉ s.exercises.map (fun x => x.id)) →
      (exs.map (fun x => x.id)).Nodup →
      importExercisesLoop s c (exs.map exerciseToRaw) =
        (c + exs.length, { s with exercises := s.exercises ++ exs }) := by
  intro exs
  induction exs with
  | nil => intro s c _ _; simp [importExercisesLoop]
  | cons e rest ih =>
    intro s c hfresh hnd
    simp only [List.map_cons, List.nodup_cons] at hnd
    have hput : exercisePut s.exercises e.id e.name =
        s.exercises ++ [{ id := e.id, name := e.name }] :=
      exercisePut_fresh s.exercises e.id e.name (hfresh e (by simp))
    have hstep : importExercisesLoop s c (exerciseToRaw e :: rest.map exerciseToRaw) =
        importExercisesLoop
          { s with exercises := s.exercises ++ [e] } (c + 1)
          (rest.map exerciseToRaw) := by
      simp [importExercisesLoop, saveExercise, exerciseToRaw, hput]
    rw [List.map_cons, hstep, ih]
    · rw [Prod.mk.injEq]
      refine ⟨by rw [List.length_cons]; omega, ?_⟩
      simp [List.append_assoc]
    · intro e2 he2
      simp only [List.map_append, List.mem_append]
      rintro (h2 | h2)
      · exact hfresh e2 (by simp [he2]) h2
      · have h3 : e2.id = e.id := by simpa using h2
        exact hnd.1 (h3 ▸ List.mem_map.mpr ⟨e2, he2, rfl⟩)
    · exact hnd.2

lemma importLogsLoop_fresh :
    ∀ (ls : List StoredLog) (now : ℤ) (s : Store) (c : Nat),
      (∀ l ∈ ls, l.timestamp ≠ 0) →
      (∀ l ∈ ls, l.id ∉ s.logs.map (fun x => x.id)) →
      (ls.map (fun x => x.id)).Nodup →
      (importLogsLoop now s c (ls.map logToRaw)).1 = c + ls.length ∧
      (importLogsLoop now s c (ls.map logToRaw)).2.logs = s.logs ++ ls ∧
      (importLogsLoop now s c (ls.map logToRaw)).2.exercises = s.exercises := by
  intro ls
  induction ls with
  | nil => intro now s c _ _ _; simp [importLogsLoop]
  | cons l rest ih =>
    intro now s c hts hfresh hnd
    simp only [List.map_cons, List.nodup_cons] at hnd
    have hts0 : l.timestamp ≠ 0 := hts l (by simp)
    have hstep : importLogsLoop now s c (logToRaw l :: rest.map logToRaw) =
        importLogsLoop now
          { s with logs := s.logs ++ [l], nextLogId := max s.nextLogId (l.id + 1) }
          (c + 1) (rest.map logToRaw) := by
      have hraw : rawToStored l.id l.timestamp (logToRaw l) = l := rfl
      simp only [importLogsLoop, importLogAdd, logToRaw]
      rw [if_neg hts0, if_neg (hfresh l (by simp))]
      rfl
    rw [List.map_cons, hstep]
    obtain ⟨ih1, ih2, ih3⟩ := ih now
      { s with logs := s.logs ++ [l], nextLogId := max s.nextLogId (l.id + 1) }
      (c + 1)
      (fun l2 hl2 => hts l2 (by simp [hl2]))
      (by
        intro l2 hl2
        simp only [List.map_append, List.mem_append]
        rintro (h2 | h2)
        · exact hfresh l2 (by simp [hl2]) h2
        · have h3 : l2.id = l.id := by simpa using h2
          exact hnd.1 (h3 ▸ List.mem_map.mpr ⟨l2, hl2, rfl⟩))
      hnd.2
    refine ⟨by rw [ih1, List.length_cons]; omega, by rw [ih2]; simp, by rw [ih3]⟩

/-- C2 (amended): re-importing an exported store into a fresh store succeeds
    with exactly the original counts, restores the exercises exactly and the
    logs up to permutation with identical field values — PROVIDED no log has
    the falsy timestamp 0; a 0 timestamp is replaced by the import time
    (log.timestamp || Date.now()), all other timestamps are verbatim. -/
theorem backup_roundTrip :
    ∀ (s : Store) (t1 t2 : ℤ),
      (∀ l ∈ s.logs, l.timestamp ≠ 0) →
      (s.logs.map (fun x => x.id)).Nodup →
      (s.exercises.map (fun x => x.id)).Nodup →
      (importBackup (backupToRaw (exportBackup s t1)) emptyStore t2).1 =
        { success := true, exercisesImported := s.exercises.length,
          workoutLogsImported := s.logs.length, error := none } ∧
      (importBackup (backupToRaw (exportBackup s t1)) emptyStore t2).2.exercises
        = s.exercises ∧
      List.Perm
        ((importBackup (backupToRaw (exportBackup s t1)) emptyStore t2).2.logs)
        s.logs := by
  intro s t1 t2 h0 h1 h2
  have hperm : List.Perm (List.insertionSort tsDescStored s.logs) s.logs :=
    List.perm_insertionSort _ _
  have hlen : (List.insertionSort tsDescStored s.logs).length = s.logs.length :=
    hperm.length_eq
  have hA : importExercisesLoop emptyStore 0 (s.exercises.map exerciseToRaw) =
      (0 + s.exercises.length,
        { exercises := s.exercises, logs := [], nextLogId := 1 }) := by
    rw [importExercisesLoop_fresh s.exercises emptyStore 0
      (by simp [emptyStore]) h2]
    rfl
  have hC := importLogsLoop_fresh (List.insertionSort tsDescStored s.logs) t2
    { exercises := s.exercises, logs := [], nextLogId := 1 } 0
    (fun l hl => h0 l (hperm.mem_iff.mp hl))
    (by simp)
    ((hperm.map (fun x => x.id)).nodup_iff.mpr h1)
  have hred : importBackup (backupToRaw (exportBackup s t1)) emptyStore t2 =
      ({ success := true,
         exercisesImported := (importExercisesLoop emptyStore 0
           (s.exercises.map exerciseToRaw)).1,
         workoutLogsImported := (importLogsLoop t2
           (importExercisesLoop emptyStore 0 (s.exercises.map exerciseToRaw)).2 0
           ((List.insertionSort tsDescStored s.logs).map logToRaw)).1,
         error := none },
       (importLogsLoop t2
         (importExercisesLoop emptyStore 0 (s.exercises.map exerciseToRaw)).2 0
         ((List.insertionSort tsDescStored s.logs).map logToRaw)).2) := by
    rfl
  rw [hred, hA]
  refine ⟨?_, ?_, ?_⟩
  · simp [hC.1, hlen]
  · simp [hC.2.2]
  · simp only [hC.2.1]
    simpa using hperm

def rtLog : StoredLog :=
  { id := 1, exerciseId := "bench", value := 60, completed := true,
    timestamp := 5, sessionId := "A", isCardio := false, time := none,
    pace := none }

/-- A one-exercise, one-log store for the round-trip witness. -/
def rtStore : Store :=
  { exercises := [{ id := "bench", name := some "Bench Press" }],
    logs := [rtLog], nextLogId := 2 }

/-- Witness for C2: the round trip on a concrete store. -/
theorem backup_roundTrip_witness :
    (importBackup (backupToRaw (exportBackup rtStore 1)) emptyStore 2).1 =
      { success := true, exercisesImported := 1, workoutLogsImported := 1,
        error := none } := by
  have h := (backup_roundTrip rtStore 1 2 (by decide) (by decide) (by decide)).1
  simpa using h

lemma importExercisesLoop_count :
    ∀ (exs : List RawExercise) (s : Store) (c : Nat),
      (importExercisesLoop s c exs).1 = c + exs.countP (fun e => e.id.isSome) := by
  intro exs
  induction exs with
  | nil => intro s c; simp [importExercisesLoop]
  | cons e rest ih =>
    intro s c
    rcases he : e.id with _ | i
    · have hstep : importExercisesLoop s c (e :: rest) =
          importExercisesLoop s c rest := by
        simp [importExercisesLoop, saveExercise, he]
      rw [hstep, ih, List.countP_cons]
      simp [he]
    · have hstep : importExercisesLoop s c (e :: rest) =
          importExercisesLoop
            { s with exercises := exercisePut s.exercises i e.name } (c + 1)
            rest := by
        simp [importExercisesLoop, saveExercise, he]
      rw [hstep, ih, List.countP_cons]
      simp [he]
      omega

def dupRawLog1 : WorkoutLogEntry :=
  { id := some 5, exerciseId := "e", value := 1, completed := true,
    timestamp := 10, sessionId := "A" }

def dupRawLog2 : WorkoutLogEntry :=
  { id := some 6, exerciseId := "e", value := 2, completed := true,
    timestamp := 20, sessionId := "A" }

/-- C6: importBackup fails fast with zero counts and an untouched store when
    either required array is absent; otherwise it attempts every record
    independently, continuing past individual failures, and returns
    success=true with the exact number of records that succeeded per
    collection (an exercise write fails exactly when the record has no id, so
    one id-less exercise among n yields n-1); a duplicate-key log among three
    still lets the other two import. -/
theorem importBackup_partial_tolerance :
    ∀ (raw : RawBackup) (s : Store) (now : ℤ),
      ((raw.exercises = none ∨ raw.workoutLogs = none) →
        importBackup raw s now =
          ({ success := false, exercisesImported := 0,
             workoutLogsImported := 0,
             error := some "Invalid backup file format" }, s)) ∧
      (∀ exs logs, raw = { exercises := some exs, workoutLogs := some logs } →
        (importBackup raw s now).1.success = true ∧
        (importBackup raw s now).1.exercisesImported =
          exs.countP (fun e => e.id.isSome)) ∧
      ((importBackup
          { exercises := some
              [{ id := some "a", name := some "A" },
               { id := none, name := some "broken" },
               { id := some "b", name := none }],
            workoutLogs := some [] } emptyStore 3).1 =
        { success := true, exercisesImported := 2, workoutLogsImported := 0,
          error := none }) ∧
      ((importBackup
          { exercises := some [],
            workoutLogs := some [dupRawLog1, dupRawLog1, dupRawLog2] }
          emptyStore 3).1.workoutLogsImported = 2) := by
  intro raw s now
  obtain ⟨re, rl⟩ := raw
  refine ⟨?_, ?_, by decide, by decide⟩
  · rintro (h | h)
    · simp only at h
      subst h
      rcases rl with _ | logs <;> rfl
    · simp only at h
      subst h
      rcases re with _ | exs <;> rfl
  · rintro exs logs heq
    injection heq with he hl
    subst he
    subst hl
    refine ⟨rfl, ?_⟩
    have h := importExercisesLoop_count exs s 0
    show (importExercisesLoop s 0 exs).1 = exs.countP (fun e => e.id.isSome)
    omega

/-- Witness for C6: the count formula applied to a concrete document with
    one id-less exercise among two. -/
theorem importBackup_partial_tolerance_witness :
    (importBackup
        { exercises := some
            [{ id := some "a", name := some "A" },
             { id := none, name := none }],
          workoutLogs := some [] } emptyStore 0).1.exercisesImported = 1 := by
  have h := (importBackup_partial_tolerance
    { exercises := some
        [{ id := some "a", name := some "A" },
         { id := none, name := none }],
      workoutLogs := some [] } emptyStore 0).2.1
    [{ id := some "a", name := some "A" }, { id := none, name := none }] []
    rfl
  rw [h.2]
  decide

/-! ## C7: legacy session conversion (sessionSchema.ts) -/

/-- A JavaScript number that may be NaN (parseInt of a non-numeric string). -/
inductive JsNum
  | nan
  | num (q : ℚ)
deriving DecidableEq, Repr

inductive MetricType
  | weight
  | time
deriving DecidableEq, Repr

/-- The numeric value of a non-empty digit string. -/
def digitsVal (cs : List Char) : Nat :=
  cs.foldl (fun n c => n * 10 + (c.toNat - 48)) 0

/-- parseInt(s, 10): skip leading whitespace, optional sign, then the longest
    digit prefix; NaN when there is none. -/
def jsParseIntChars (cs : List Char) : JsNum :=
  let cs1 := cs.dropWhile Char.isWhitespace
  let neg := cs1.head? == some '-'
  let cs2 :=
    if cs1.head? == some '-' || cs1.head? == some '+' then cs1.tail else cs1
  let ds := cs2.takeWhile Char.isDigit
  if ds.isEmpty then JsNum.nan
  else if neg then JsNum.num (-(digitsVal ds : ℚ))
  else JsNum.num (digitsVal ds : ℚ)

def jsParseInt (s : String) : JsNum := jsParseIntChars s.data

/-- JavaScript n || d for numbers: NaN and 0 are falsy. -/
def jsOr (n : JsNum) (d : ℚ) : JsNum :=
  match n with
  | JsNum.nan => JsNum.num d
  | JsNum.num q => if q = 0 then JsNum.num d else JsNum.num q

/-- String.prototype.trim. -/
def jsTrim (cs : List Char) : List Char :=
  ((cs.dropWhile Char.isWhitespace).reverse.dropWhile Char.isWhitespace).reverse

/-- String.prototype.split("-"). -/
def splitOnDash : List Char → List (List Char)
  | [] => [[]]
  | c :: rest =>
    if c == '-' then [] :: splitOnDash rest
    else
      match splitOnDash rest with
      | [] => [[c]]
      | h :: t => (c :: h) :: t

/-- The whole-string test of the code's time regex: digits, optional
    whitespace, a final s or S (case-insensitive flag). -/
def matchesTimeRegex (s : String) : Bool :=
  let cs := s.data
  let ds := cs.takeWhile Char.isDigit
  let rest := (cs.dropWhile Char.isDigit).dropWhile Char.isWhitespace
  !ds.isEmpty && (rest == ['s'] || rest == ['S'])

/-- The whole-string test of the code's range regex: digits, optional
    whitespace, a hyphen, optional whitespace, digits. -/
def matchesRangeRegex (s : String) : Bool :=
  let cs := s.data
  let ds1 := cs.takeWhile Char.isDigit
  match (cs.dropWhile Char.isDigit).dropWhile Char.isWhitespace with
  | [] => false
  | c :: r2 =>
    let r3 := r2.dropWhile Char.isWhitespace
    !ds1.isEmpty && (c == '-') && !(r3.takeWhile Char.isDigit).isEmpty &&
      (r3.dropWhile Char.isDigit).isEmpty

/-- Modelled from the spec: the range regex exactly as claim C7 states it —
    digits, a hyphen, digits, with NO whitespace tolerance — for comparison
    with the source regex above. -/
def matchesClaimRangeRegex (s : String) : Bool :=
  let cs := s.data
  let ds1 := cs.takeWhile Char.isDigit
  match cs.dropWhile Char.isDigit with
  | [] => false
  | c :: r2 =>
    !ds1.isEmpty && (c == '-') && !(r2.takeWhile Char.isDigit).isEmpty &&
      (r2.dropWhile Char.isDigit).isEmpty

inductive Target
  | reps (reps : JsNum)
  | range (min max : JsNum)
  | time (seconds : JsNum)
  | amrap (capReps : Option JsNum)
deriving DecidableEq, Repr

inductive Load
  | weight (unit : String)
  | bodyweight
  | band (band : String)
  | machine (setting : String)
deriving DecidableEq, Repr

structure LegacyExercise where
  id : String
  name : String
  sets : ℚ
  reps : ℚ ⊕ String
  metricType : Option MetricType
deriving DecidableEq, Repr

/-- A converted Step; the fields the conversion never sets are elided. -/
structure Step where
  id : String
  name : String
  sets : ℚ
  target : Target
  load : Option Load
deriving DecidableEq, Repr

/-- The [min, max] destructuring of reps.split("-").map(x =>
    parseInt(x.trim(), 10)) in the range branch. -/
def rangeParts (s : String) : JsNum × JsNum :=
  let parts := (splitOnDash s.data).map (fun x => jsParseIntChars (jsTrim x))
  (parts.getD 0 JsNum.nan, parts.getD 1 JsNum.nan)

/-- legacyExerciseToStep: metric type defaults to weight; a time metric
    always yields a time target (parsing string reps); otherwise numeric reps
    yield a reps target, then the time regex, then the range regex, then the
    parseInt-or-10 fallback; load is weight kg exactly for the weight
    metric. -/
def legacyExerciseToStep (e : LegacyExercise) : Step :=
  let metricType := e.metricType.getD MetricType.weight
  let target : Target :=
    if metricType = MetricType.time then
      Target.time (match e.reps with
        | Sum.inl q => JsNum.num q
        | Sum.inr s => jsParseInt s)
    else
      match e.reps with
      | Sum.inl q => Target.reps (JsNum.num q)
      | Sum.inr s =>
        if matchesTimeRegex s then Target.time (jsParseInt s)
        else if matchesRangeRegex s then
          Target.range (rangeParts s).1 (rangeParts s).2
        else Target.reps (jsOr (jsParseInt s) 10)
  let load : Option Load :=
    if metricType = MetricType.weight then some (Load.weight "kg") else none
  { id := e.id, name := e.name, sets := e.sets, target := target, load := load }

structure LegacySuperset where
  rest : ℚ
  exercises : List LegacyExercise
deriving DecidableEq, Repr

structure LegacySession where
  id : String
  name : String
  supersets : List LegacySuperset
deriving DecidableEq, Repr

structure RestSpec where
  betweenExercisesSeconds : ℚ
  afterRoundSeconds : ℚ
deriving DecidableEq, Repr

structure SupersetBlock where
  rest : RestSpec
  exercises : List Step
deriving DecidableEq, Repr

structure SessionV2 where
  id : String
  name : String
  blocks : List SupersetBlock
  version : Nat
deriving DecidableEq, Repr

def legacySupersetToBlock (superset : LegacySuperset) : SupersetBlock :=
  { rest := { betweenExercisesSeconds := 0, afterRoundSeconds := superset.rest },
    exercises := superset.exercises.map legacyExerciseToStep }

def legacySessionToV2 (session : LegacySession) : SessionV2 :=
  { id := session.id, name := session.name,
    blocks := session.supersets.map legacySupersetToBlock, version := 2 }

/-- Modelled from the spec: claim C7's branch order verbatim, using its
    whitespace-free range regex, for comparison with the source. -/
def claimTargetOf (e : LegacyExercise) : Target :=
  let metricType := e.metricType.getD MetricType.weight
  if metricType = MetricType.time then
    Target.time (match e.reps with
      | Sum.inl q => JsNum.num q
      | Sum.inr s => jsParseInt s)
  else
    match e.reps with
    | Sum.inl q => Target.reps (JsNum.num q)
    | Sum.inr s =>
      if matchesTimeRegex s then Target.time (jsParseInt s)
      else if matchesClaimRangeRegex s then
        Target.range (rangeParts s).1 (rangeParts s).2
      else Target.reps (jsOr (jsParseInt s) 10)

def spacedRangeExercise : LegacyExercise :=
  { id := "lunge", name := "Lunge", sets := 3, reps := Sum.inr "8 - 12",
    metricType := none }

/-- C7 counterexample: the source regex allows whitespace around the hyphen
    (/^\d+\s*-\s*\d+$/), the claim's does not — on reps "8 - 12" the code
    produces range{8, 12} while the claim's branch order (its range regex
    failing) predicts the parseInt fallback reps{8}. -/
theorem legacy_range_regex_counterexample :
    (legacyExerciseToStep spacedRangeExercise).target =
      Target.range (JsNum.num 8) (JsNum.num 12) ∧
    claimTargetOf spacedRangeExercise = Target.reps (JsNum.num 8) ∧
    Target.range (JsNum.num 8) (JsNum.num 12) ≠ Target.reps (JsNum.num 8) := by
  decide

/-- C7 (amended): the conversion is total and follows exactly the claimed
    branch order, except that the range branch fires on the source regex
    /^\d+\s*-\s*\d+$/ (whitespace allowed around the hyphen) rather than the
    claim's /^\d+-\d+$/; the target always lands in one of the four closed
    variants, and load is weight{unit:"kg"} exactly when the (defaulted)
    metric is "weight". -/
theorem legacyExerciseToStep_spec :
    ∀ e : LegacyExercise,
      (e.metricType = none →
        legacyExerciseToStep e =
          legacyExerciseToStep { e with metricType := some MetricType.weight }) ∧
      (e.metricType = some MetricType.time →
        (∀ q, e.reps = Sum.inl q →
          (legacyExerciseToStep e).target = Target.time (JsNum.num q)) ∧
        (∀ s, e.reps = Sum.inr s →
          (legacyExerciseToStep e).target = Target.time (jsParseInt s))) ∧
      (e.metricType = some MetricType.weight →
        (∀ q, e.reps = Sum.inl q →
          (legacyExerciseToStep e).target = Target.reps (JsNum.num q)) ∧
        (∀ s, e.reps = Sum.inr s →
          (matchesTimeRegex s = true →
            (legacyExerciseToStep e).target = Target.time (jsParseInt s)) ∧
          (matchesTimeRegex s = false → matchesRangeRegex s = true →
            (legacyExerciseToStep e).target =
              Target.range (rangeParts s).1 (rangeParts s).2) ∧
          (matchesTimeRegex s = false → matchesRangeRegex s = false →
            (legacyExerciseToStep e).target =
              Target.reps (jsOr (jsParseInt s) 10)))) ∧
      ((legacyExerciseToStep e).load = some (Load.weight "kg") ↔
        e.metricType ≠ some MetricType.time) ∧
      ((∃ n, (legacyExerciseToStep e).target = Target.reps n) ∨
       (∃ a b, (legacyExerciseToStep e).target = Target.range a b) ∨
       (∃ n, (legacyExerciseToStep e).target = Target.time n) ∨
       (∃ c, (legacyExerciseToStep e).target = Target.amrap c)) := by
  intro e
  refine ⟨?_, ?_, ?_, ?_, ?_⟩
  · intro h
    simp [legacyExerciseToStep, h]
  · intro h
    constructor
    · intro q hq
      simp [legacyExerciseToStep, h, hq]
    · intro s hs
      simp [legacyExerciseToStep, h, hs, jsParseInt]
  · intro h
    constructor
    · intro q hq
      simp [legacyExerciseToStep, h, hq]
    · intro s hs
      refine ⟨?_, ?_, ?_⟩
      · intro ht
        simp [legacyExerciseToStep, h, hs, ht]
      · intro ht hr
        simp [legacyExerciseToStep, h, hs, ht, hr]
      · intro ht hr
        simp [legacyExerciseToStep, h, hs, ht, hr]
  · rcases hm : e.metricType with _ | mt
    · simp [legacyExerciseToStep, hm]
    · cases mt <;> simp [legacyExerciseToStep, hm]
  · rcases h : (legacyExerciseToStep e).target with n | ⟨a, b⟩ | m | c
    · exact Or.inl ⟨n, rfl⟩
    · exact Or.inr (Or.inl ⟨a, b, rfl⟩)
    · exact Or.inr (Or.inr (Or.inl ⟨m, rfl⟩))
    · exact Or.inr (Or.inr (Or.inr ⟨c, rfl⟩))

def rangeDemoExercise : LegacyExercise :=
  { id := "curl", name := "Curl", sets := 4, reps := Sum.inr "8-12",
    metricType := some MetricType.weight }

/-- Witness for C7: the range branch of the theorem at a concrete
    exercise. -/
theorem legacyExerciseToStep_spec_witness :
    (legacyExerciseToStep rangeDemoExercise).target =
      Target.range (JsNum.num 8) (JsNum.num 12) := by
  have h := (((legacyExerciseToStep_spec rangeDemoExercise).2.2.1 rfl).2
    "8-12" rfl).2.1 (by decide) (by decide)
  rw [h]
  decide

end GymWorkout
